import Mathlib

/-!
Verification development for the follow-up reminder digest engine of the
client-crm repository (file `send_reminders.py`, function `run_reminders`).

The Python pipeline is shallowly embedded over explicit row lists:
calendar dates are integers (days), pandas `NaT` coercion results are
`Option Date`, Python value truthiness for the `id` field is the `PyVal`
type, and the Supabase store is a `List Row` threaded through the run.
Failure of the remote send / mark calls is modelled by boolean oracles
keyed by recipient; an uncaught Python exception is `Except.error`.
-/

/-- Calendar date, as a count of days (Monday-of-epoch convention). -/
abbrev Date := Int

/-- A Python value as it appears in the `id` column: `None`, an integer or a
string.  Mirrors the values `r.get("id")` can produce in the script. -/
inductive PyVal where
  | vnone
  | vint (n : Int)
  | vstr (s : String)
deriving DecidableEq, Repr

/-- Python truthiness, as used by `if it["id"]` on line 134 of
`send_reminders.py`: `None`, `0` and `""` are falsy. -/
def PyVal.truthy : PyVal → Bool
  | .vnone => false
  | .vint n => n != 0
  | .vstr s => s != ""

/-- One prospect row, after the date-normalisation of lines 98-102 of
`send_reminders.py`: `follow_up_date` and `last_reminded_on` hold the
result of `pd.to_datetime(..., errors="coerce").dt.date` (`none` = `NaT`),
and the string columns hold the raw store value (`none` = SQL/JSON null,
which pandas keeps as Python `None` in an object column). -/
structure Row where
  id : PyVal
  assigned_to_email : Option String
  follow_up_date : Option Date
  last_reminded_on : Option Date
  first_name : Option String
  last_name : Option String
  company : Option String
deriving DecidableEq, Repr

/-- Pandas comparison `x <= t` where `x` may be `NaT`: any comparison with
`NaT` other than `!=` is `False` (line 105: `df["follow_up_date"] <= window_end`). -/
def pyLe : Option Date → Date → Bool
  | none, _ => false
  | some d, t => d ≤ t

/-- Pandas comparison `x < t` where `x` may be `NaT` (line 117). -/
def pyLt : Option Date → Date → Bool
  | none, _ => false
  | some d, t => d < t

/-- Pandas comparison `x != t` where `x` may be `NaT`: `NaT != t` is `True`
(line 111: `due["last_reminded_on"] != today`). -/
def pyNeq : Option Date → Date → Bool
  | none, _ => true
  | some d, t => d != t

/-- Weekday of a date; with the chosen epoch, Monday is `0`, matching
`datetime.weekday()` in the script. -/
def weekday (d : Date) : Int := d % 7

/-- The frequency gate of lines 85-90: `off` never runs, `weekly` runs on
Monday only, everything else (including unknown values) runs. -/
def shouldRun (freq : String) (today : Date) : Bool :=
  if freq == "off" then false
  else if freq == "weekly" && !(weekday today == 0) then false
  else true

/-- Line 105: the due set, `df[df["follow_up_date"] <= window_end]` with
`window_end = today + timedelta(days=7)`. -/
def dueRows (today : Date) (rows : List Row) : List Row :=
  rows.filter (fun r => pyLe r.follow_up_date (today + 7))

/-- Line 111: the once-per-day gate,
`(due["last_reminded_on"] != today) | (due["last_reminded_on"].isna())`. -/
def needsEmail (today : Date) (r : Row) : Bool :=
  pyNeq r.last_reminded_on today || r.last_reminded_on.isNone

/-- Lines 105-111 composed: the due rows that still need an email today. -/
def dueNeedingEmail (today : Date) (rows : List Row) : List Row :=
  (dueRows today rows).filter (needsEmail today)

/-- Python `value or ""` on an optional string: `None` and `""` are falsy
and give `""`; any other string is returned unchanged (line 115). -/
def pyOr (o : Option String) : String :=
  match o with
  | none => ""
  | some s => if s == "" then "" else s

/-- Python `str.strip()`: drop whitespace from both ends of the string.
Implemented by structural recursion over the character list so that it
evaluates inside the kernel. -/
def pyStrip (s : String) : String :=
  String.mk (((s.data.dropWhile Char.isWhitespace).reverse.dropWhile Char.isWhitespace).reverse)

/-- Line 115: `(r.get("assigned_to_email") or "").strip()`. -/
def recipOf (r : Row) : String := pyStrip (pyOr r.assigned_to_email)

/-- Whether `pat` occurs at the start of `l`. -/
def listStartsWith : List Char → List Char → Bool
  | _, [] => true
  | [], _ :: _ => false
  | c :: cs, p :: ps => c == p && listStartsWith cs ps

/-- Whether `pat` occurs as a contiguous sublist of `l`. -/
def listContainsSub (l pat : List Char) : Bool :=
  match l with
  | [] => pat.isEmpty
  | _ :: rest => listStartsWith l pat || listContainsSub rest pat

/-- Whether `pat` occurs as a substring of `s` (executable in the kernel). -/
def strContainsSub (s pat : String) : Bool :=
  listContainsSub s.data pat.data

/-- A stored string value interpolated into an f-string: Python `None`
renders as the literal text `None` (lines 117-118); an actual string
renders as itself. -/
def renderField (o : Option String) : String :=
  match o with
  | none => "None"
  | some s => s

/-- Rendering of a (possibly `NaT`) date inside the f-string of line 117. -/
def pyDateStr : Option Date → String
  | none => "NaT"
  | some d => toString d

/-- Line 117: `"OVERDUE" if r["follow_up_date"] < today else f"Due {r['follow_up_date']}"`. -/
def statusOf (today : Date) (fu : Option Date) : String :=
  if pyLt fu today then "OVERDUE" else "Due " ++ pyDateStr fu

/-- Line 118: the digest line
`f"- {first_name} {last_name} @ {company}  [{status}]"`. -/
def lineOf (today : Date) (r : Row) : String :=
  "- " ++ renderField r.first_name ++ " " ++ renderField r.last_name ++ " @ "
    ++ renderField r.company ++ "  [" ++ statusOf today r.follow_up_date ++ "]"

/-- Line 119: the per-row record appended to a recipient's batch,
`{"id": r.get("id"), "line": line}`. -/
structure Item where
  id : PyVal
  line : String
deriving DecidableEq, Repr

/-- The batch item the loop of lines 114-119 builds for one row. -/
def itemOf (today : Date) (r : Row) : Item :=
  { id := r.id, line := lineOf today r }

/-- `defaultdict(list)` append: `batches[recipient].append(item)`.  Keys keep
their first-insertion order; an existing key has the item appended in place. -/
def addItem : List (String × List Item) → String → Item → List (String × List Item)
  | [], k, it => [(k, [it])]
  | (k₂, its) :: rest, k, it =>
      if k₂ == k then (k₂, its ++ [it]) :: rest
      else (k₂, its) :: addItem rest k it

/-- One iteration of the batching loop (lines 114-119): skip the row when
the trimmed recipient is empty, otherwise append its item under the
recipient key. -/
def batchStep (today : Date) (bs : List (String × List Item)) (r : Row) : List (String × List Item) :=
  if recipOf r = "" then bs else addItem bs (recipOf r) (itemOf today r)

/-- Lines 113-119: the full batching pass over the due-and-unnotified rows,
in the order they were read from the store. -/
def buildBatches (today : Date) (rows : List Row) : List (String × List Item) :=
  rows.foldl (batchStep today) []

/-- Dict lookup in the batches mapping. -/
def lookupB (k : String) : List (String × List Item) → Option (List Item)
  | [] => none
  | (k₂, its) :: rest => if k₂ == k then some its else lookupB k rest

/-- The batch stored under a key, `[]` when the key is absent. -/
def getBatch (k : String) (bs : List (String × List Item)) : List Item :=
  (lookupB k bs).getD []

/-- Line 123: the fixed preamble of the digest body. -/
def preambleLine : String :=
  "Here are your follow-ups that are overdue or due within the next 7 days:"

/-- Line 127: the fixed signature footer of the digest body. -/
def signatureLine : String := "— Client Prospect CRM"

/-- Lines 122-131: the digest body, `"\n".join(body_lines)` with a
preamble, a blank line, one line per item, a blank line and the footer. -/
def bodyOf (items : List Item) : String :=
  String.intercalate "\n" ([preambleLine, ""] ++ items.map Item.line ++ ["", signatureLine])

/-- Line 129: the fixed digest subject. -/
def subjectLine : String := "Follow-Up Digest: Overdue & Upcoming (7 days)"

/-- Line 134: `ids = [it["id"] for it in items if it["id"]]` — the batch's
identifiers with the Python-falsy ones filtered out. -/
def markIds (items : List Item) : List PyVal :=
  (items.filter (fun it => it.id.truthy)).map Item.id

/-- The row update applied by the mark write of lines 136-138:
`last_reminded_on` is set to today, all other columns are untouched. -/
def markRow (today : Date) (r : Row) : Row :=
  { r with last_reminded_on := some today }

/-- Lines 136-138: `update({"last_reminded_on": today}).in_("id", ids)` —
every store row whose id is in `ids` is marked, all others kept. -/
def applyMark (today : Date) (ids : List PyVal) (rows : List Row) : List Row :=
  rows.map (fun r => if r.id ∈ ids then markRow today r else r)

/-- Lines 134-138: the mark step for one batch, including the `if ids:`
guard that skips the store call when every id was falsy. -/
def markWrite (today : Date) (items : List Item) (rows : List Row) : List Row :=
  let ids := markIds items
  if ids.isEmpty then rows else applyMark today ids rows

/-- Per-recipient outcome of the dispatch loop, as printed on lines
132 and 140: sent-and-marked, send raised, or mark raised. -/
inductive DOutcome where
  | success
  | sendFailed
  | markFailed
deriving DecidableEq, Repr

/-- The outcome the loop records for one recipient, given the send/mark
oracles. -/
def outcomeOf (sendOk markOk : String → Bool) (k : String) : DOutcome :=
  if sendOk k then (if markOk k then DOutcome.success else DOutcome.markFailed)
  else DOutcome.sendFailed

/-- One iteration of the dispatch loop (lines 121-140): try the send; on
success try the mark write; any exception is caught by the `except` and the
loop continues with the next recipient.  A failed send or a raising mark
leaves the store untouched for this batch. -/
def dispatchStep (today : Date) (sendOk markOk : String → Bool)
    (acc : List Row × List (String × DOutcome)) (b : String × List Item) :
    List Row × List (String × DOutcome) :=
  if sendOk b.1 then
    if markOk b.1 then (markWrite today b.2 acc.1, acc.2 ++ [(b.1, DOutcome.success)])
    else (acc.1, acc.2 ++ [(b.1, DOutcome.markFailed)])
  else (acc.1, acc.2 ++ [(b.1, DOutcome.sendFailed)])

/-- Lines 121-140: the dispatch loop over all batches, threading the store
state and collecting one outcome per recipient. -/
def dispatchAll (today : Date) (sendOk markOk : String → Bool)
    (rows : List Row) (batches : List (String × List Item)) :
    List Row × List (String × DOutcome) :=
  batches.foldl (dispatchStep today sendOk markOk) (rows, [])

/-- The identifiers marked during a whole run: the union, over the batches
whose send and mark both succeeded, of their truthy ids. -/
def successIds (sendOk markOk : String → Bool) (batches : List (String × List Item)) : List PyVal :=
  (batches.filter (fun b => sendOk b.1 && markOk b.1)).flatMap (fun b => markIds b.2)

/-- How one prospect read against the store can go: the query raises, the
response carries no data (`res.data` is `None`), or it returns the rows. -/
inductive ReadBehavior where
  | raises (msg : String)
  | noData
  | returnsRows
deriving DecidableEq, Repr

/-- Lines 74-77: `load_prospects` — no exception handling, so a raising
query propagates (`Except.error`); a dataless response yields an empty
DataFrame; otherwise the store's rows are returned. -/
def load_prospects (db : List Row) : ReadBehavior → Except String (List Row)
  | ReadBehavior.raises msg => Except.error msg
  | ReadBehavior.noData => Except.ok []
  | ReadBehavior.returnsRows => Except.ok db

/-- Lines 80-140: the whole run.  Result: final store state and the
per-recipient outcome list, or `Except.error` when an exception escaped
`run_reminders` (the script has no handler around it, so this is an
abnormal process termination). -/
def run_reminders (freq : String) (today : Date) (db : List Row) (rb : ReadBehavior)
    (sendOk markOk : String → Bool) : Except String (List Row × List (String × DOutcome)) :=
  if freq == "off" then Except.ok (db, [])
  else if freq == "weekly" && !(weekday today == 0) then Except.ok (db, [])
  else
    match load_prospects db rb with
    | Except.error msg => Except.error msg
    | Except.ok rows =>
        if rows.isEmpty then Except.ok (db, [])
        else
          let due := dueRows today rows
          if due.isEmpty then Except.ok (db, [])
          else
            let batches := buildBatches today (due.filter (needsEmail today))
            Except.ok (dispatchAll today sendOk markOk db batches)

/-! Concrete data used by the witness theorems. -/

/-- A prospect assigned to `a@x.com`, overdue at day 10, never notified. -/
def wRowA : Row :=
  { id := PyVal.vint 1, assigned_to_email := some "a@x.com", follow_up_date := some 9,
    last_reminded_on := none, first_name := some "Ann", last_name := some "Lee",
    company := some "Acme" }

/-- A prospect assigned to `b@x.com`, due at day 12, never notified. -/
def wRowB : Row :=
  { id := PyVal.vint 2, assigned_to_email := some "b@x.com", follow_up_date := some 12,
    last_reminded_on := none, first_name := some "Bob", last_name := some "Kay",
    company := some "Beta" }

/-- A two-recipient store. -/
def wDb : List Row := [wRowA, wRowB]

/-- A send oracle that fails for `a@x.com` and succeeds for `b@x.com`. -/
def wSend : String → Bool := fun k => k == "b@x.com"

/-- An oracle that always succeeds. -/
def wAllOk : String → Bool := fun _ => true

/-- Due row last notified yesterday (day 9, with today = 10). -/
def wRowYd : Row :=
  { id := PyVal.vint 3, assigned_to_email := some "a@x.com", follow_up_date := some 11,
    last_reminded_on := some 9, first_name := some "Cat", last_name := some "Doe",
    company := some "Gamma" }

/-- Due row last notified today (day 10). -/
def wRowTd : Row :=
  { id := PyVal.vint 4, assigned_to_email := some "a@x.com", follow_up_date := some 11,
    last_reminded_on := some 10, first_name := some "Dan", last_name := some "Poe",
    company := some "Delta" }

/-- Store for the once-per-day-gate witness. -/
def wRows1 : List Row := [wRowYd, wRowTd]

/-- Follow-up exactly at the boundary `today + 7` for today = 10. -/
def wRowB7 : Row :=
  { id := PyVal.vint 5, assigned_to_email := some "a@x.com", follow_up_date := some 17,
    last_reminded_on := none, first_name := some "Eve", last_name := some "Fox",
    company := some "Eps" }

/-- Follow-up one day past the boundary (`today + 8` for today = 10). -/
def wRowB8 : Row :=
  { id := PyVal.vint 6, assigned_to_email := some "a@x.com", follow_up_date := some 18,
    last_reminded_on := none, first_name := some "Fay", last_name := some "Gee",
    company := some "Zeta" }

/-- Row with no follow-up date scheduled. -/
def wRowNoFu : Row :=
  { id := PyVal.vint 7, assigned_to_email := some "a@x.com", follow_up_date := none,
    last_reminded_on := none, first_name := some "Gus", last_name := some "Hale",
    company := some "Eta" }

/-- Store for the due-window witness. -/
def wRows3 : List Row := [wRowB7, wRowB8, wRowNoFu]

/-- A batch item with a truthy id, for the mark-frame witness. -/
def wItem : Item := { id := PyVal.vint 1, line := "- Ann Lee @ Acme  [OVERDUE]" }

/-- Row whose `first_name` is a stored null (Python `None`). -/
def rowNullName : Row :=
  { id := PyVal.vint 8, assigned_to_email := some "a@x.com", follow_up_date := some 0,
    last_reminded_on := none, first_name := none, last_name := some "Smith",
    company := some "Acme" }

/-- Row whose name and company fields are empty strings. -/
def wRowEmptyFields : Row :=
  { id := PyVal.vint 9, assigned_to_email := some "a@x.com", follow_up_date := some 9,
    last_reminded_on := none, first_name := some "", last_name := some "",
    company := some "" }

/-- Row whose recipient address is whitespace only. -/
def wRowWs : Row :=
  { id := PyVal.vint 10, assigned_to_email := some "   ", follow_up_date := some 9,
    last_reminded_on := none, first_name := some "Ida", last_name := some "Jay",
    company := some "Iota" }

/-- Due row with a falsy (absent) identifier, assigned to `a@x.com`. -/
def wRowFalsy : Row :=
  { id := PyVal.vnone, assigned_to_email := some "a@x.com", follow_up_date := some 9,
    last_reminded_on := none, first_name := some "Kim", last_name := some "Low",
    company := some "Kappa" }

/-- Store for the falsy-id witness. -/
def wDbFalsy : List Row := [wRowFalsy, wRowB]

/-! Helper lemmas about the mark write and the dispatch loop. -/

/-- The mark step is pointwise: mark exactly the rows whose id is in the
batch's truthy id list (the `if ids:` guard changes nothing when the list
is empty). -/
theorem markWrite_eq_map (today : Date) (items : List Item) (st : List Row) :
    markWrite today items st
      = st.map (fun r => if r.id ∈ markIds items then markRow today r else r) := by
  simp only [markWrite, applyMark]
  cases h : markIds items with
  | nil => simp
  | cons a as => simp [h]

/-- `successIds` unfolds over a cons of batches. -/
theorem successIds_cons (s m : String → Bool) (b : String × List Item)
    (rest : List (String × List Item)) :
    successIds s m (b :: rest)
      = (if s b.1 && m b.1 then markIds b.2 else []) ++ successIds s m rest := by
  by_cases hc : (s b.1 && m b.1) = true
  · simp [successIds, List.filter_cons, hc]
  · simp [successIds, List.filter_cons, hc]

/-- Composing two pointwise mark passes equals one pass over the
concatenated id lists. -/
theorem mark_compose (today : Date) (ids₁ ids₂ : List PyVal) (r : Row) :
    (if (if r.id ∈ ids₁ then markRow today r else r).id ∈ ids₂ then
        markRow today (if r.id ∈ ids₁ then markRow today r else r)
      else if r.id ∈ ids₁ then markRow today r else r)
      = if r.id ∈ ids₁ ++ ids₂ then markRow today r else r := by
  by_cases h1 : r.id ∈ ids₁
  · by_cases h2 : r.id ∈ ids₂ <;> simp [h1, h2, markRow]
  · by_cases h2 : r.id ∈ ids₂ <;> simp [h1, h2, markRow]

/-- Generalised state lemma for the dispatch fold: the final store equals
the initial store with exactly the run's successful truthy ids marked. -/
theorem dispatchAll_fst_aux (today : Date) (s m : String → Bool) :
    ∀ (batches : List (String × List Item)) (st : List Row) (outs : List (String × DOutcome)),
      (List.foldl (dispatchStep today s m) (st, outs) batches).1
        = st.map (fun r => if r.id ∈ successIds s m batches then markRow today r else r) := by
  intro batches
  induction batches with
  | nil =>
      intro st outs
      simp [successIds]
  | cons b rest ih =>
      intro st outs
      rw [List.foldl_cons]
      by_cases hs : s b.1 = true
      · by_cases hm : m b.1 = true
        · have hstep : dispatchStep today s m (st, outs) b
              = (markWrite today b.2 st, outs ++ [(b.1, DOutcome.success)]) := by
            simp [dispatchStep, hs, hm]
          rw [hstep, ih, markWrite_eq_map, List.map_map]
          have hfg : ((fun r₂ => if Row.id r₂ ∈ successIds s m rest then markRow today r₂ else r₂)
                ∘ (fun r₁ => if Row.id r₁ ∈ markIds b.2 then markRow today r₁ else r₁))
              = fun r => if r.id ∈ successIds s m (b :: rest) then markRow today r else r := by
            funext r
            simp only [Function.comp_apply]
            rw [mark_compose, successIds_cons]
            simp [hs, hm]
          rw [hfg]
        · have hstep : dispatchStep today s m (st, outs) b
              = (st, outs ++ [(b.1, DOutcome.markFailed)]) := by
            simp [dispatchStep, hs, hm]
          rw [hstep, ih, successIds_cons, if_neg (by simp [hm])]
          simp
      · have hstep : dispatchStep today s m (st, outs) b
            = (st, outs ++ [(b.1, DOutcome.sendFailed)]) := by
          simp [dispatchStep, hs]
        rw [hstep, ih, successIds_cons, if_neg (by simp [hs])]
        simp

/-- The final store state after the dispatch loop. -/
theorem dispatchAll_fst (today : Date) (s m : String → Bool) (st : List Row)
    (batches : List (String × List Item)) :
    (dispatchAll today s m st batches).1
      = st.map (fun r => if r.id ∈ successIds s m batches then markRow today r else r) :=
  dispatchAll_fst_aux today s m batches st []

/-- Generalised outcome lemma for the dispatch fold: one outcome per batch,
in batch order, regardless of failures. -/
theorem dispatchAll_snd_aux (today : Date) (s m : String → Bool) :
    ∀ (batches : List (String × List Item)) (st : List Row) (outs : List (String × DOutcome)),
      (List.foldl (dispatchStep today s m) (st, outs) batches).2
        = outs ++ batches.map (fun b => (b.1, outcomeOf s m b.1)) := by
  intro batches
  induction batches with
  | nil =>
      intro st outs
      simp
  | cons b rest ih =>
      intro st outs
      rw [List.foldl_cons]
      by_cases hs : s b.1 = true
      · by_cases hm : m b.1 = true
        · have hstep : dispatchStep today s m (st, outs) b
              = (markWrite today b.2 st, outs ++ [(b.1, DOutcome.success)]) := by
            simp [dispatchStep, hs, hm]
          rw [hstep, ih]
          simp [outcomeOf, hs, hm]
        · have hstep : dispatchStep today s m (st, outs) b
              = (st, outs ++ [(b.1, DOutcome.markFailed)]) := by
            simp [dispatchStep, hs, hm]
          rw [hstep, ih]
          simp [outcomeOf, hs, hm]
      · have hstep : dispatchStep today s m (st, outs) b
            = (st, outs ++ [(b.1, DOutcome.sendFailed)]) := by
          simp [dispatchStep, hs]
        rw [hstep, ih]
        simp [outcomeOf, hs]

/-- The per-recipient outcome list of the dispatch loop. -/
theorem dispatchAll_snd (today : Date) (s m : String → Bool) (st : List Row)
    (batches : List (String × List Item)) :
    (dispatchAll today s m st batches).2
      = batches.map (fun b => (b.1, outcomeOf s m b.1)) :=
  dispatchAll_snd_aux today s m batches st []

/-! Helper lemmas about the batching pass. -/

/-- Appending under a key extends exactly that key's batch. -/
theorem getBatch_addItem_self (bs : List (String × List Item)) (k : String) (it : Item) :
    getBatch k (addItem bs k it) = getBatch k bs ++ [it] := by
  induction bs with
  | nil => simp [addItem, getBatch, lookupB]
  | cons hd tl ih =>
      obtain ⟨k₂, its⟩ := hd
      by_cases h : k₂ = k
      · subst h
        simp [addItem, getBatch, lookupB]
      · have hb : (k₂ == k) = false := beq_eq_false_iff_ne.mpr h
        have ih' := ih
        simp only [getBatch] at ih'
        simp [addItem, getBatch, lookupB, hb, ih']

/-- Appending under one key leaves every other key's batch unchanged. -/
theorem getBatch_addItem_ne (bs : List (String × List Item)) (k k₁ : String) (it : Item)
    (h : k₁ ≠ k) : getBatch k₁ (addItem bs k it) = getBatch k₁ bs := by
  induction bs with
  | nil =>
      have hb : (k == k₁) = false := beq_eq_false_iff_ne.mpr (Ne.symm h)
      simp [addItem, getBatch, lookupB, hb]
  | cons hd tl ih =>
      obtain ⟨k₂, its⟩ := hd
      by_cases h2 : k₂ = k
      · subst h2
        have hb : (k₂ == k₂) = true := beq_self_eq_true k₂
        have hb1 : (k₂ == k₁) = false := beq_eq_false_iff_ne.mpr (Ne.symm h)
        simp [addItem, getBatch, lookupB, hb, hb1]
      · have hb : (k₂ == k) = false := beq_eq_false_iff_ne.mpr h2
        by_cases h1 : k₂ = k₁
        · subst h1
          simp [addItem, getBatch, lookupB, hb]
        · have hb1 : (k₂ == k₁) = false := beq_eq_false_iff_ne.mpr h1
          have ih' := ih
          simp only [getBatch] at ih'
          simp [addItem, getBatch, lookupB, hb, hb1, ih']

/-- Generalised batching lemma: folding the batching step over rows appends,
to the accumulator's batch for a (nonempty) recipient, exactly the items of
the rows with that trimmed recipient, in read order. -/
theorem buildBatches_fold (today : Date) (R : String) (hR : R ≠ "") :
    ∀ (rows : List Row) (bs : List (String × List Item)),
      getBatch R (List.foldl (batchStep today) bs rows)
        = getBatch R bs ++ (rows.filter (fun r => recipOf r == R)).map (itemOf today) := by
  intro rows
  induction rows with
  | nil => intro bs; simp
  | cons r rest ih =>
      intro bs
      rw [List.foldl_cons]
      by_cases h0 : recipOf r = ""
      · have hbr : (recipOf r == R) = false := by
          rw [h0]
          exact beq_eq_false_iff_ne.mpr (Ne.symm hR)
        have hstep : batchStep today bs r = bs := by
          unfold batchStep
          rw [if_pos h0]
        rw [hstep, ih]
        simp [List.filter_cons, hbr]
      · by_cases hRr : recipOf r = R
        · have hbr : (recipOf r == R) = true := by rw [hRr]; exact beq_self_eq_true R
          have hstep : batchStep today bs r = addItem bs R (itemOf today r) := by
            unfold batchStep
            rw [if_neg h0, hRr]
          rw [hstep, ih, getBatch_addItem_self]
          simp [List.filter_cons, hbr]
        · have hbr : (recipOf r == R) = false := beq_eq_false_iff_ne.mpr hRr
          have hstep : batchStep today bs r = addItem bs (recipOf r) (itemOf today r) := by
            unfold batchStep
            rw [if_neg h0]
          rw [hstep, ih, getBatch_addItem_ne _ _ _ _ (Ne.symm hRr)]
          simp [List.filter_cons, hbr]

/-- The batch built for a (nonempty) recipient is exactly the items of the
rows with that trimmed recipient, in the order the rows were read. -/
theorem buildBatches_getBatch (today : Date) (rows : List Row) (R : String) (hR : R ≠ "") :
    getBatch R (buildBatches today rows)
      = (rows.filter (fun r => recipOf r == R)).map (itemOf today) := by
  unfold buildBatches
  rw [buildBatches_fold today R hR rows []]
  simp [getBatch, lookupB]

/-- Every entry of `addItem bs k it` has key `k` or a key of `bs`. -/
theorem addItem_fst_mem (bs : List (String × List Item)) (k : String) (it : Item) :
    ∀ b ∈ addItem bs k it, b.1 = k ∨ b.1 ∈ bs.map Prod.fst := by
  induction bs with
  | nil =>
      intro b hb
      simp [addItem] at hb
      simp [hb]
  | cons hd tl ih =>
      obtain ⟨k₂, its⟩ := hd
      intro b hb
      simp only [addItem] at hb
      by_cases h : (k₂ == k) = true
      · rw [if_pos h] at hb
        rcases List.mem_cons.mp hb with hb | hb
        · right
          rw [hb]
          simp
        · right
          simp only [List.map_cons]
          exact List.mem_cons_of_mem _ (List.mem_map_of_mem Prod.fst hb)
      · rw [if_neg h] at hb
        rcases List.mem_cons.mp hb with hb | hb
        · right
          rw [hb]
          simp
        · rcases ih b hb with h3 | h3
          · left; exact h3
          · right
            simp only [List.map_cons]
            exact List.mem_cons_of_mem _ h3

/-- The keys of `addItem`: unchanged when the key is present, otherwise the
new key is appended. -/
theorem addItem_keys (bs : List (String × List Item)) (k : String) (it : Item) :
    (addItem bs k it).map Prod.fst
      = if k ∈ bs.map Prod.fst then bs.map Prod.fst else bs.map Prod.fst ++ [k] := by
  induction bs with
  | nil => simp [addItem]
  | cons hd tl ih =>
      obtain ⟨k₂, its⟩ := hd
      by_cases h : k₂ = k
      · subst h
        simp [addItem]
      · have hb : (k₂ == k) = false := beq_eq_false_iff_ne.mpr h
        by_cases hm : k ∈ tl.map Prod.fst
        · simp [addItem, hb, ih, hm, Ne.symm h]
        · simp [addItem, hb, ih, hm, Ne.symm h]

/-- Folding the batching step preserves distinctness of the recipient keys. -/
theorem foldBatch_keys_nodup (today : Date) :
    ∀ (rows : List Row) (bs : List (String × List Item)),
      (bs.map Prod.fst).Nodup → ((List.foldl (batchStep today) bs rows).map Prod.fst).Nodup := by
  intro rows
  induction rows with
  | nil => intro bs h; simpa using h
  | cons r rest ih =>
      intro bs h
      rw [List.foldl_cons]
      apply ih
      by_cases h0 : recipOf r = ""
      · have hstep : batchStep today bs r = bs := by
          unfold batchStep
          rw [if_pos h0]
        rw [hstep]; exact h
      · have hstep : batchStep today bs r = addItem bs (recipOf r) (itemOf today r) := by
          unfold batchStep
          rw [if_neg h0]
        rw [hstep, addItem_keys]
        by_cases hm : recipOf r ∈ bs.map Prod.fst
        · rw [if_pos hm]; exact h
        · rw [if_neg hm]
          simp [List.nodup_append, h, hm]

/-- The recipient keys of the built batches are pairwise distinct. -/
theorem buildBatches_keys_nodup (today : Date) (rows : List Row) :
    ((buildBatches today rows).map Prod.fst).Nodup := by
  unfold buildBatches
  exact foldBatch_keys_nodup today rows [] (by simp)

/-- Folding the batching step never introduces an empty recipient key. -/
theorem foldBatch_keys_ne_empty (today : Date) :
    ∀ (rows : List Row) (bs : List (String × List Item)),
      (∀ b ∈ bs, b.1 ≠ "") → ∀ b ∈ List.foldl (batchStep today) bs rows, b.1 ≠ "" := by
  intro rows
  induction rows with
  | nil => intro bs h; simpa using h
  | cons r rest ih =>
      intro bs h
      rw [List.foldl_cons]
      apply ih
      intro b hb
      by_cases h0 : recipOf r = ""
      · have hstep : batchStep today bs r = bs := by
          unfold batchStep
          rw [if_pos h0]
        rw [hstep] at hb
        exact h b hb
      · have hstep : batchStep today bs r = addItem bs (recipOf r) (itemOf today r) := by
          unfold batchStep
          rw [if_neg h0]
        rw [hstep] at hb
        rcases addItem_fst_mem bs (recipOf r) (itemOf today r) b hb with hk | hk
        · rw [hk]; exact h0
        · rcases List.mem_map.mp hk with ⟨b₂, hb₂, hfst⟩
          rw [← hfst]
          exact h b₂ hb₂

/-- Every batch entry is addressed to a nonempty recipient. -/
theorem buildBatches_keys_ne_empty (today : Date) (rows : List Row) :
    ∀ b ∈ buildBatches today rows, b.1 ≠ "" := by
  unfold buildBatches
  exact foldBatch_keys_ne_empty today rows [] (by simp)

/-- With distinct keys, membership of an entry determines the lookup. -/
theorem lookupB_of_mem (bs : List (String × List Item)) (k : String) (its : List Item)
    (hnd : (bs.map Prod.fst).Nodup) (hmem : (k, its) ∈ bs) : lookupB k bs = some its := by
  induction bs with
  | nil => simp at hmem
  | cons hd tl ih =>
      obtain ⟨k₂, its₂⟩ := hd
      rcases List.mem_cons.mp hmem with heq | hmem₂
      · have hk : k₂ = k := by
          have := congrArg Prod.fst heq
          simpa using this.symm
        have hi : its₂ = its := by
          have := congrArg Prod.snd heq
          simpa using this.symm
        subst hk
        subst hi
        simp [lookupB]
      · have hk : k₂ ≠ k := by
          intro hkk
          subst hkk
          have hmem₃ : k₂ ∈ tl.map Prod.fst :=
            List.mem_map.mpr ⟨(k₂, its), hmem₂, rfl⟩
          exact (List.nodup_cons.mp (by simpa using hnd)).1 hmem₃
        have hb : (k₂ == k) = false := beq_eq_false_iff_ne.mpr hk
        simp only [lookupB, hb, Bool.false_eq_true, if_false]
        exact ih (List.nodup_cons.mp (by simpa using hnd)).2 hmem₂

/-- Elements of `markIds` are truthy ids of the batch's items. -/
theorem mem_markIds (items : List Item) (x : PyVal) (hx : x ∈ markIds items) :
    x.truthy = true ∧ ∃ it ∈ items, it.id = x := by
  unfold markIds at hx
  rcases List.mem_map.mp hx with ⟨it, hit, hid⟩
  rcases List.mem_filter.mp hit with ⟨hmem, htr⟩
  exact ⟨hid ▸ htr, it, hmem, hid⟩

/-- Elements of `successIds` are truthy ids of some batch whose send and
mark both succeeded. -/
theorem mem_successIds (s m : String → Bool) (batches : List (String × List Item)) (x : PyVal)
    (hx : x ∈ successIds s m batches) :
    x.truthy = true ∧ ∃ b ∈ batches, s b.1 = true ∧ m b.1 = true ∧ ∃ it ∈ b.2, it.id = x := by
  unfold successIds at hx
  rcases List.mem_flatMap.mp hx with ⟨b, hb, hxb⟩
  rcases List.mem_filter.mp hb with ⟨hbm, hcond⟩
  rw [Bool.and_eq_true] at hcond
  rcases mem_markIds b.2 x hxb with ⟨htr, it, hit, hid⟩
  exact ⟨htr, b, hbm, hcond.1, hcond.2, it, hit, hid⟩

/-- Provenance of a marked id: it is the id of some batched row whose
recipient's send succeeded. -/
theorem successIds_from_rows (today : Date) (s m : String → Bool) (rows : List Row) (x : PyVal)
    (hx : x ∈ successIds s m (buildBatches today rows)) :
    x.truthy = true ∧ ∃ r ∈ rows, r.id = x ∧ recipOf r ≠ "" ∧ s (recipOf r) = true := by
  rcases mem_successIds s m (buildBatches today rows) x hx with ⟨htr, b, hb, hs, hm, it, hit, hid⟩
  have hk : b.1 ≠ "" := buildBatches_keys_ne_empty today rows b hb
  have hnd := buildBatches_keys_nodup today rows
  have hlk : lookupB b.1 (buildBatches today rows) = some b.2 :=
    lookupB_of_mem (buildBatches today rows) b.1 b.2 hnd (by simpa using hb)
  have hb2 : b.2 = (rows.filter (fun r => recipOf r == b.1)).map (itemOf today) := by
    have hgb := buildBatches_getBatch today rows b.1 hk
    unfold getBatch at hgb
    rw [hlk] at hgb
    simpa using hgb
  rw [hb2] at hit
  rcases List.mem_map.mp hit with ⟨r, hr, hr2⟩
  rcases List.mem_filter.mp hr with ⟨hrmem, hrk⟩
  have hrecip : recipOf r = b.1 := by simpa using hrk
  refine ⟨htr, r, hrmem, ?_, ?_, ?_⟩
  · rw [← hid, ← hr2]
    rfl
  · rw [hrecip]; exact hk
  · rw [hrecip]; exact hs

/-- Membership in the due-and-unnotified selection, unfolded. -/
theorem mem_dueNeedingEmail_iff (today : Date) (rows : List Row) (r : Row) :
    r ∈ dueNeedingEmail today rows
      ↔ r ∈ rows ∧ pyLe r.follow_up_date (today + 7) = true ∧ needsEmail today r = true := by
  simp only [dueNeedingEmail, dueRows, List.mem_filter]
  tauto

/-- Helper: a key with a non-nil lookup is among the batch keys. -/
theorem mem_keys_of_lookupB (bs : List (String × List Item)) (k : String) :
    lookupB k bs ≠ none → k ∈ bs.map Prod.fst := by
  induction bs with
  | nil => intro h; simp [lookupB] at h
  | cons hd tl ih =>
      obtain ⟨k₂, its⟩ := hd
      intro h
      by_cases hk : (k₂ == k) = true
      · simp only [List.map_cons]
        exact List.mem_cons.mpr (Or.inl (eq_of_beq hk).symm)
      · have hk₂ : (k₂ == k) = false := by simpa using hk
        simp only [lookupB, hk₂, Bool.false_eq_true, if_false] at h
        simp only [List.map_cons]
        exact List.mem_cons.mpr (Or.inr (ih h))

/-- C1: once-per-day idempotency gate.  A due row is selected for
notification today iff its `last_reminded_on` differs from today (absence
counts as different); a row last notified today is excluded from the
unnotified set, and a row last notified yesterday is included. -/
theorem once_per_day_gate (today : Date) (rows : List Row) (r : Row) :
    (r ∈ dueNeedingEmail today rows
        ↔ r ∈ dueRows today rows ∧ r.last_reminded_on ≠ some today)
    ∧ (r.last_reminded_on = some today → r ∉ dueNeedingEmail today rows)
    ∧ (r ∈ dueRows today rows → r.last_reminded_on = some (today - 1)
        → r ∈ dueNeedingEmail today rows) := by
  have hne : needsEmail today r = true ↔ r.last_reminded_on ≠ some today := by
    unfold needsEmail pyNeq
    cases h : r.last_reminded_on with
    | none => simp
    | some d => simp [h]
  refine ⟨?_, ?_, ?_⟩
  · constructor
    · intro hmem
      rcases List.mem_filter.mp hmem with ⟨hdu, hneed⟩
      exact ⟨hdu, hne.mp hneed⟩
    · rintro ⟨hdu, hlast⟩
      exact List.mem_filter.mpr ⟨hdu, hne.mpr hlast⟩
  · intro hlast hmem
    rcases List.mem_filter.mp hmem with ⟨_, hneed⟩
    exact (hne.mp hneed) hlast
  · intro hdu hlast
    refine List.mem_filter.mpr ⟨hdu, hne.mpr ?_⟩
    rw [hlast]
    intro hcontra
    have h2 := Option.some.inj hcontra
    simp at h2

/-- C1 witness: at day 10, the due row last notified on day 9 is selected
and the due row last notified on day 10 is not. -/
theorem once_per_day_gate_witness :
    wRowYd ∈ dueNeedingEmail 10 wRows1 ∧ wRowTd ∉ dueNeedingEmail 10 wRows1 :=
  ⟨(once_per_day_gate 10 wRows1 wRowYd).2.2 (by decide) (by decide),
   (once_per_day_gate 10 wRows1 wRowTd).2.1 (by decide)⟩

/-- C3: due-set selection with the inclusive 7-day boundary.  A row is due
iff its follow-up date is present and at most `today + 7`; the boundary day
is included, `today + 8` and absent dates are excluded. -/
theorem due_window_boundary (today : Date) (rows : List Row) (r : Row) :
    (r ∈ dueRows today rows
        ↔ r ∈ rows ∧ ∃ d, r.follow_up_date = some d ∧ d ≤ today + 7)
    ∧ (r ∈ rows → r.follow_up_date = some (today + 7) → r ∈ dueRows today rows)
    ∧ (r.follow_up_date = some (today + 8) → r ∉ dueRows today rows)
    ∧ (r.follow_up_date = none → r ∉ dueRows today rows) := by
  have hle : pyLe r.follow_up_date (today + 7) = true
      ↔ ∃ d, r.follow_up_date = some d ∧ d ≤ today + 7 := by
    cases h : r.follow_up_date with
    | none => simp [pyLe]
    | some d => simp [pyLe]
  refine ⟨?_, ?_, ?_, ?_⟩
  · constructor
    · intro hmem
      rcases List.mem_filter.mp hmem with ⟨hm, hp⟩
      exact ⟨hm, hle.mp hp⟩
    · rintro ⟨hm, hex⟩
      exact List.mem_filter.mpr ⟨hm, hle.mpr hex⟩
  · intro hm hfu
    refine List.mem_filter.mpr ⟨hm, ?_⟩
    rw [hfu]
    simp [pyLe]
  · intro hfu hmem
    rcases List.mem_filter.mp hmem with ⟨_, hp⟩
    rw [hfu] at hp
    simp [pyLe] at hp
  · intro hfu hmem
    rcases List.mem_filter.mp hmem with ⟨_, hp⟩
    rw [hfu] at hp
    simp [pyLe] at hp

/-- C3 witness: at day 10, the row due on day 17 (= today + 7) is in the
due set; the rows due on day 18 and with no follow-up date are not. -/
theorem due_window_boundary_witness :
    wRowB7 ∈ dueRows 10 wRows3 ∧ wRowB8 ∉ dueRows 10 wRows3
      ∧ wRowNoFu ∉ dueRows 10 wRows3 :=
  ⟨(due_window_boundary 10 wRows3 wRowB7).2.1 (by decide) (by decide),
   (due_window_boundary 10 wRows3 wRowB8).2.2.1 (by decide),
   (due_window_boundary 10 wRows3 wRowNoFu).2.2.2 (by decide)⟩

/-- C7: fail-open frequency gate.  Any frequency other than `off` and
`weekly` makes the gate pass on every date and the whole run behave exactly
as with `daily` (this covers every unknown or malformed value). -/
theorem unknown_frequency_fail_open (freq : String) (h1 : freq ≠ "off")
    (h2 : freq ≠ "weekly") (today : Date) (db : List Row) (rb : ReadBehavior)
    (s m : String → Bool) :
    shouldRun freq today = true
    ∧ run_reminders freq today db rb s m = run_reminders "daily" today db rb s m := by
  have hb1 : (freq == "off") = false := beq_eq_false_iff_ne.mpr h1
  have hb2 : (freq == "weekly") = false := beq_eq_false_iff_ne.mpr h2
  have hd1 : (("daily" : String) == "off") = false := rfl
  have hd2 : (("daily" : String) == "weekly") = false := rfl
  constructor
  · unfold shouldRun
    rw [hb1, hb2]
    simp
  · unfold run_reminders
    rw [hb1, hb2, hd1, hd2]

/-- C7 witness: the unknown frequency value `hourly` proceeds on day 3 (not
a Monday) and runs identically to `daily`. -/
theorem unknown_frequency_fail_open_witness :
    shouldRun "hourly" 3 = true
    ∧ run_reminders "hourly" 3 [] ReadBehavior.returnsRows wAllOk wAllOk
        = run_reminders "daily" 3 [] ReadBehavior.returnsRows wAllOk wAllOk :=
  unknown_frequency_fail_open "hourly" (by decide) (by decide) 3 []
    ReadBehavior.returnsRows wAllOk wAllOk

/-- C6 counterexample: a prospect read that raises propagates out of the
run as an uncaught exception (`Except.error`), i.e. the process terminates
abnormally instead of exiting cleanly — `load_prospects` and
`run_reminders` have no handler around the store read. -/
theorem read_raise_not_clean_cex :
    run_reminders "daily" 0 [] (ReadBehavior.raises "connection error") wAllOk wAllOk
      = Except.error "connection error" := rfl

/-- C6 amended: a prospect read that yields no data makes the run exit
cleanly with the store untouched and zero recipients processed; a prospect
read that raises escapes the run uncaught. -/
theorem read_failure_amended (today : Date) (db : List Row) (msg : String)
    (s m : String → Bool) :
    run_reminders "daily" today db (ReadBehavior.raises msg) s m = Except.error msg
    ∧ run_reminders "daily" today db ReadBehavior.noData s m = Except.ok (db, []) :=
  ⟨rfl, rfl⟩

/-- C8 counterexample: a row whose stored `first_name` is null has its
digest line rendered with the literal text `None` in the name segment (the
substring check exhibits the occurrence), refuting the claim that a
missing name renders as an empty segment and that `None` never appears. -/
theorem none_leak_cex :
    rowNullName.first_name = none
    ∧ lineOf 5 rowNullName = "- None Smith @ Acme  [OVERDUE]"
    ∧ strContainsSub (lineOf 5 rowNullName) "None" = true
    ∧ lineOf 5 rowNullName ≠ "-  Smith @ Acme  [OVERDUE]" := by
  refine ⟨rfl, by decide, by decide, by decide⟩

/-- C8 amended: name/company values stored as empty strings render as empty
segments of the digest line; only a value stored as null renders as the
literal `None` (see the counterexample). -/
theorem empty_fields_render_empty (today : Date) (r : Row)
    (h1 : r.first_name = some "") (h2 : r.last_name = some "")
    (h3 : r.company = some "") :
    lineOf today r = "-   @   [" ++ statusOf today r.follow_up_date ++ "]" := by
  have hA : ("- " ++ "" ++ " " ++ "" ++ " @ " ++ "" ++ "  [" : String) = "-   @   [" := rfl
  simp only [lineOf, h1, h2, h3, renderField]
  rw [hA]

/-- C8 amended witness: the all-empty-fields row renders with empty
segments. -/
theorem empty_fields_render_empty_witness :
    lineOf 0 wRowEmptyFields
      = "-   @   [" ++ statusOf 0 wRowEmptyFields.follow_up_date ++ "]" :=
  empty_fields_render_empty 0 wRowEmptyFields rfl rfl rfl

/-- C9: empty-recipient exclusion.  A row whose trimmed recipient is empty
(absent, empty or whitespace-only address) contributes nothing to the
batches, and every batch is addressed to a nonempty recipient, so the
engine never sends to an empty address. -/
theorem empty_recipient_excluded (today : Date) (r : Row) (l1 l2 : List Row)
    (h : recipOf r = "") :
    buildBatches today (l1 ++ r :: l2) = buildBatches today (l1 ++ l2)
    ∧ ∀ b ∈ buildBatches today (l1 ++ r :: l2), b.1 ≠ "" := by
  constructor
  · unfold buildBatches
    rw [List.foldl_append, List.foldl_append, List.foldl_cons]
    have hstep : batchStep today (List.foldl (batchStep today) [] l1) r
        = List.foldl (batchStep today) [] l1 := by
      unfold batchStep
      rw [if_pos h]
    rw [hstep]
  · exact buildBatches_keys_ne_empty today (l1 ++ r :: l2)

/-- C9 witness: the whitespace-recipient row is dropped — batching with it
equals batching without it. -/
theorem empty_recipient_excluded_witness :
    buildBatches 10 [wRowA, wRowWs, wRowB] = buildBatches 10 [wRowA, wRowB] :=
  (empty_recipient_excluded 10 wRowWs [wRowA] [wRowB] (by decide)).1

/-- C4: mark-step frame property.  For a sent batch whose items carry real
(truthy) identifiers, the mark write sets `last_reminded_on = today` for
exactly the rows whose id is in the batch and leaves every other row
untouched. -/
theorem mark_write_frame (today : Date) (items : List Item) (st : List Row)
    (htruthy : ∀ it ∈ items, it.id.truthy = true) :
    markWrite today items st
      = st.map (fun r => if r.id ∈ items.map Item.id then markRow today r else r) := by
  rw [markWrite_eq_map]
  have hids : markIds items = items.map Item.id := by
    unfold markIds
    rw [List.filter_eq_self.mpr htruthy]
  rw [hids]

/-- C4 witness: marking the singleton batch containing id 1 over the
two-row store. -/
theorem mark_write_frame_witness :
    markWrite 10 [wItem] wDb
      = wDb.map (fun r => if r.id ∈ [wItem].map Item.id then markRow 10 r else r) :=
  mark_write_frame 10 [wItem] wDb (by decide)

/-- C2: send-failure isolation.  When recipient `R`'s send fails, every
store row addressed to `R` is left exactly as it was (its mark write is
never applied), while the rest of the store sees only the successful
batches' marks, and the loop still records one outcome per recipient —
it does not abort on the failure.  The hypotheses are the data-model
invariant that row identifiers are unique. -/
theorem send_failure_isolation (today : Date) (s m : String → Bool) (db : List Row)
    (R : String) (hfail : s R = false) (huniq : (db.map Row.id).Nodup) :
    (dispatchAll today s m db (buildBatches today (dueNeedingEmail today db))).1
        = db.map (fun r =>
            if recipOf r = R then r
            else if r.id ∈ successIds s m (buildBatches today (dueNeedingEmail today db))
              then markRow today r else r)
    ∧ (dispatchAll today s m db (buildBatches today (dueNeedingEmail today db))).2
        = (buildBatches today (dueNeedingEmail today db)).map
            (fun b => (b.1, outcomeOf s m b.1)) := by
  constructor
  · rw [dispatchAll_fst]
    apply List.map_congr_left
    intro r hr
    by_cases hR : recipOf r = R
    · rw [if_pos hR]
      have hnot : r.id ∉ successIds s m (buildBatches today (dueNeedingEmail today db)) := by
        intro hmem
        rcases successIds_from_rows today s m (dueNeedingEmail today db) r.id hmem with
          ⟨htr, r₂, hr₂, hid, hrec, hsend⟩
        have hr₂db : r₂ ∈ db :=
          ((mem_dueNeedingEmail_iff today db r₂).mp hr₂).1
        have heq : r₂ = r := List.inj_on_of_nodup_map huniq hr₂db hr hid
        rw [heq, hR, hfail] at hsend
        exact Bool.false_ne_true hsend
      rw [if_neg hnot]
    · rw [if_neg hR]
  · exact dispatchAll_snd today s m db (buildBatches today (dueNeedingEmail today db))

/-- C2 witness: with the send to `a@x.com` failing and the send to
`b@x.com` succeeding over the two-row store at day 10, the row addressed
to `a@x.com` is untouched and both recipients get an outcome. -/
theorem send_failure_isolation_witness :
    (dispatchAll 10 wSend wAllOk wDb (buildBatches 10 (dueNeedingEmail 10 wDb))).1
        = wDb.map (fun r =>
            if recipOf r = "a@x.com" then r
            else if r.id ∈ successIds wSend wAllOk (buildBatches 10 (dueNeedingEmail 10 wDb))
              then markRow 10 r else r)
    ∧ (dispatchAll 10 wSend wAllOk wDb (buildBatches 10 (dueNeedingEmail 10 wDb))).2
        = (buildBatches 10 (dueNeedingEmail 10 wDb)).map
            (fun b => (b.1, outcomeOf wSend wAllOk b.1)) :=
  send_failure_isolation 10 wSend wAllOk wDb "a@x.com" (by decide) (by decide)

/-- C5: batching.  A recipient with at least one row gets exactly one batch
entry (hence exactly one dispatched digest: the loop records one outcome
per entry), whose items are the rows with that trimmed recipient in the
order they were read, and whose body carries one line per such row in that
order between the fixed preamble and footer. -/
theorem single_digest_per_recipient (today : Date) (rs : List Row) (R : String)
    (s m : String → Bool) (db : List Row) (hR : R ≠ "")
    (hex : ∃ r ∈ rs, recipOf r = R) :
    (buildBatches today rs).countP (fun b => b.1 == R) = 1
    ∧ getBatch R (buildBatches today rs)
        = (rs.filter (fun r => recipOf r == R)).map (itemOf today)
    ∧ bodyOf (getBatch R (buildBatches today rs))
        = String.intercalate "\n"
            ([preambleLine, ""]
              ++ (rs.filter (fun r => recipOf r == R)).map (fun r => lineOf today r)
              ++ ["", signatureLine])
    ∧ (dispatchAll today s m db (buildBatches today rs)).2
        = (buildBatches today rs).map (fun b => (b.1, outcomeOf s m b.1)) := by
  have hgb := buildBatches_getBatch today rs R hR
  have hne : getBatch R (buildBatches today rs) ≠ [] := by
    rw [hgb]
    rcases hex with ⟨r, hr, hrR⟩
    have hmemf : r ∈ rs.filter (fun r₂ => recipOf r₂ == R) :=
      List.mem_filter.mpr ⟨hr, by rw [hrR]; exact beq_self_eq_true R⟩
    exact List.ne_nil_of_mem (List.mem_map_of_mem (itemOf today) hmemf)
  have hmemk : R ∈ (buildBatches today rs).map Prod.fst := by
    apply mem_keys_of_lookupB
    intro hnone
    apply hne
    unfold getBatch
    rw [hnone]
    rfl
  have hcount : (buildBatches today rs).countP (fun b => b.1 == R) = 1 := by
    have h1 : (buildBatches today rs).countP (fun b => b.1 == R)
        = ((buildBatches today rs).map Prod.fst).count R := by
      rw [List.count, List.countP_map]
      rfl
    rw [h1]
    exact List.count_eq_one_of_mem (buildBatches_keys_nodup today rs) hmemk
  refine ⟨hcount, hgb, ?_, dispatchAll_snd today s m db (buildBatches today rs)⟩
  rw [hgb]
  unfold bodyOf
  rw [List.map_map]
  rfl

/-- C5 witness: two due rows sharing `a@x.com` yield a single batch entry
holding both items in read order, with the matching digest body. -/
theorem single_digest_per_recipient_witness :
    (buildBatches 10 [wRowA, wRowYd]).countP (fun b => b.1 == "a@x.com") = 1
    ∧ getBatch "a@x.com" (buildBatches 10 [wRowA, wRowYd])
        = ([wRowA, wRowYd].filter (fun r => recipOf r == "a@x.com")).map (itemOf 10)
    ∧ bodyOf (getBatch "a@x.com" (buildBatches 10 [wRowA, wRowYd]))
        = String.intercalate "\n"
            ([preambleLine, ""]
              ++ ([wRowA, wRowYd].filter (fun r => recipOf r == "a@x.com")).map
                  (fun r => lineOf 10 r)
              ++ ["", signatureLine])
    ∧ (dispatchAll 10 wAllOk wAllOk wDb (buildBatches 10 [wRowA, wRowYd])).2
        = (buildBatches 10 [wRowA, wRowYd]).map
            (fun b => (b.1, outcomeOf wAllOk wAllOk b.1)) :=
  single_digest_per_recipient 10 [wRowA, wRowYd] "a@x.com" wAllOk wAllOk wDb
    (by decide) ⟨wRowA, by decide, by decide⟩

/-- C10 (implicit): a due, gate-passing row with a falsy identifier
(`None`, `0` or `""`) is batched into its recipient's digest, yet its id is
filtered out of the mark write; the row therefore survives the whole run
unchanged and is batched again on any later run while it is still due and
gate-passing. -/
theorem falsy_id_never_marked (today : Date) (s m : String → Bool) (db : List Row)
    (r : Row) (hr : r ∈ db) (hfalsy : r.id.truthy = false) (hrec : recipOf r ≠ "")
    (hdue : pyLe r.follow_up_date (today + 7) = true)
    (hgate : needsEmail today r = true) :
    itemOf today r ∈ getBatch (recipOf r) (buildBatches today (dueNeedingEmail today db))
    ∧ r.id ∉ markIds (getBatch (recipOf r) (buildBatches today (dueNeedingEmail today db)))
    ∧ r ∈ (dispatchAll today s m db (buildBatches today (dueNeedingEmail today db))).1
    ∧ ∀ d : Date, pyLe r.follow_up_date (d + 7) = true → needsEmail d r = true →
        itemOf d r ∈ getBatch (recipOf r)
          (buildBatches d (dueNeedingEmail d
            ((dispatchAll today s m db (buildBatches today (dueNeedingEmail today db))).1))) := by
  have hrdne : r ∈ dueNeedingEmail today db :=
    (mem_dueNeedingEmail_iff today db r).mpr ⟨hr, hdue, hgate⟩
  have hmem1 : itemOf today r
      ∈ getBatch (recipOf r) (buildBatches today (dueNeedingEmail today db)) := by
    rw [buildBatches_getBatch today (dueNeedingEmail today db) (recipOf r) hrec]
    exact List.mem_map_of_mem (itemOf today)
      (List.mem_filter.mpr ⟨hrdne, beq_self_eq_true (recipOf r)⟩)
  have hnotmark : r.id
      ∉ markIds (getBatch (recipOf r) (buildBatches today (dueNeedingEmail today db))) := by
    intro hmem
    rcases mem_markIds _ _ hmem with ⟨htr, _⟩
    rw [hfalsy] at htr
    exact Bool.false_ne_true htr
  have hfinal : r ∈ (dispatchAll today s m db (buildBatches today (dueNeedingEmail today db))).1 := by
    rw [dispatchAll_fst]
    have hnot : r.id ∉ successIds s m (buildBatches today (dueNeedingEmail today db)) := by
      intro hmem
      rcases mem_successIds _ _ _ _ hmem with ⟨htr, _⟩
      rw [hfalsy] at htr
      exact Bool.false_ne_true htr
    have hfix : (fun r₂ => if Row.id r₂ ∈ successIds s m (buildBatches today (dueNeedingEmail today db))
        then markRow today r₂ else r₂) r = r := by
      simp [hnot]
    exact hfix ▸ List.mem_map_of_mem _ hr
  refine ⟨hmem1, hnotmark, hfinal, ?_⟩
  intro d hdue₂ hgate₂
  have hrdne₂ : r ∈ dueNeedingEmail d
      ((dispatchAll today s m db (buildBatches today (dueNeedingEmail today db))).1) :=
    (mem_dueNeedingEmail_iff d _ r).mpr ⟨hfinal, hdue₂, hgate₂⟩
  rw [buildBatches_getBatch d _ (recipOf r) hrec]
  exact List.mem_map_of_mem (itemOf d)
    (List.mem_filter.mpr ⟨hrdne₂, beq_self_eq_true (recipOf r)⟩)

/-- C10 witness: the falsy-id row is in its day-10 digest, survives the
day-10 run unchanged, and is batched again at day 11 over the post-run
store. -/
theorem falsy_id_never_marked_witness :
    itemOf 10 wRowFalsy
        ∈ getBatch (recipOf wRowFalsy) (buildBatches 10 (dueNeedingEmail 10 wDbFalsy))
    ∧ wRowFalsy ∈ (dispatchAll 10 wAllOk wAllOk wDbFalsy
        (buildBatches 10 (dueNeedingEmail 10 wDbFalsy))).1
    ∧ itemOf 11 wRowFalsy ∈ getBatch (recipOf wRowFalsy)
        (buildBatches 11 (dueNeedingEmail 11
          ((dispatchAll 10 wAllOk wAllOk wDbFalsy
            (buildBatches 10 (dueNeedingEmail 10 wDbFalsy))).1))) :=
  ⟨(falsy_id_never_marked 10 wAllOk wAllOk wDbFalsy wRowFalsy (by decide) (by decide)
      (by decide) (by decide) (by decide)).1,
   (falsy_id_never_marked 10 wAllOk wAllOk wDbFalsy wRowFalsy (by decide) (by decide)
      (by decide) (by decide) (by decide)).2.2.1,
   (falsy_id_never_marked 10 wAllOk wAllOk wDbFalsy wRowFalsy (by decide) (by decide)
      (by decide) (by decide) (by decide)).2.2.2 11 (by decide) (by decide)⟩
